import Mathlib

/-!
Verification of the program-registry service (`src/main.rs`): a
content-addressed artifact store for compiled program blobs.  The service
classifies an uploaded blob by the major component of its embedded
`compiler_version` field, computes a format-specific content hash, stores
the blob keyed by that hash in a `programs` table, and serves it back by
hash.

Embedding conventions:
* JSON documents are modelled by the inductive `Json`; a raw byte payload
  is modelled by `Bytes`, which records either the JSON document the bytes
  decode to (UTF-8 + serde_json being deterministic) or an opaque
  non-JSON byte list.  The service never re-encodes a payload, so a blob
  is compared and stored as this abstract value.
* The external hashing libraries (cairo-lang-starknet-classes'
  `CasmContractClass` deserializer and `compiled_class_hash`, cairo-vm's
  `Program::from_bytes`, `get_stripped_program` and
  `compute_program_hash_chain`) are black-box deterministic pure
  functions per the specification; they are modelled by a record of
  abstract functions `ExtLibs` over opaque carrier types.
* The Postgres table is modelled by `Store`; a `down` flag models a
  storage outage.  The uniqueness constraint on the hash column comes
  from the migrations, which are not part of the source tree, and is
  modelled from the spec.
* A Rust `unwrap`/`expect` failure is a handler panic, modelled by the
  distinguished outcome `panicked`, different from an HTTP error status.
-/

/-- Json value as produced by serde_json: null, booleans, numbers,
strings, arrays and objects (objects with distinct keys, last-wins
deduplication having already happened at parse time). -/
inductive Json where
  | null : Json
  | bool : Bool → Json
  | num : Int → Json
  | str : String → Json
  | arr : List Json → Json
  | obj : List (String × Json) → Json

/-- Lookup of a key in an object's field list, first match (keys are
distinct in a parsed document). -/
def Json.lookupField : List (String × Json) → String → Option Json
  | [], _ => none
  | (k, v) :: rest, key => if k = key then some v else Json.lookupField rest key

/-- Model of serde_json `Value::get`: field lookup on an object, `none` on
any other value. -/
def Json.get : Json → String → Option Json
  | .obj fields, key => Json.lookupField fields key
  | _, _ => none

/-- Model of serde_json `Value::as_str`. -/
def Json.asStr : Json → Option String
  | .str s => some s
  | _ => none

/-- Model of a raw byte payload.  `json j` stands for a byte sequence that
decodes (UTF-8 then serde_json) to the document `j`; `raw bs` stands for a
byte sequence that is not a valid JSON document.  Decoding is a
deterministic pure function of the bytes, so this pairing is faithful;
payloads are stored and compared as these abstract values. -/
inductive Bytes where
  | json : Json → Bytes
  | raw : List Nat → Bytes

/-- Model of `get_compiler_version` (src/main.rs lines 182-194): decode the
bytes as UTF-8, parse as JSON, and extract the string value of the
`compiler_version` field; any failure is an error. -/
def get_compiler_version (bytes : Bytes) : Except String String :=
  match bytes with
  | .raw _ => .error "invalid utf8 or json"
  | .json j =>
    match (Json.get j "compiler_version").bind Json.asStr with
    | some v => .ok v
    | none => .error "compiler_version field not found or not a uint"

/-- Model of Rust `str::split(sep)` on a character list: splits at every
occurrence of the separator, keeping empty segments, and yields one (empty)
segment for the empty input. -/
def splitChar (sep : Char) : List Char → List (List Char)
  | [] => [[]]
  | c :: rest =>
    if c = sep then [] :: splitChar sep rest
    else
      match splitChar sep rest with
      | [] => [[c]]
      | g :: gs => (c :: g) :: gs

/-- Accumulating decimal value of a character list; `none` as soon as a
non-digit character appears. -/
def digitsValAux (acc : Nat) : List Char → Option Nat
  | [] => some acc
  | c :: rest =>
    if c.isDigit then digitsValAux (acc * 10 + (c.toNat - 48)) rest else none

/-- Model of Rust `str::parse::<i32>()`: an optional sign followed by at
least one decimal digit, rejecting values outside the i32 range. -/
def parse_i32 (cs : List Char) : Option Int :=
  match cs with
  | [] => none
  | c :: rest =>
    let signAndDigits : Bool × List Char :=
      if c = '-' then (true, rest) else if c = '+' then (false, rest) else (false, cs)
    match signAndDigits.2 with
    | [] => none
    | _ :: _ =>
      match digitsValAux 0 signAndDigits.2 with
      | none => none
      | some n =>
        let v : Int := if signAndDigits.1 then -(n : Int) else (n : Int)
        if -(2 ^ 31) ≤ v ∧ v ≤ 2 ^ 31 - 1 then some v else none

/-- The Stark field prime, modulus of the field elements returned by both
hashing libraries. -/
def STARK_PRIME : Nat := 2 ^ 251 + 17 * 2 ^ 192 + 1

/-- Field element: the value type of both content digests
(`FieldElement` / `Felt252`). -/
abbrev Felt : Type := Fin STARK_PRIME

/-- Record of the external library functions the handler calls, each a
black-box deterministic pure function per the specification, over opaque
carrier types `C` (casm contract class), `P` (cairo-vm program) and
`S` (stripped program).  `parseCasm`/`parseProgram` return `none` exactly
when deserialization of the JSON document fails; `getStripped` and
`hashChain` return `none` exactly when the library call returns an error.
`FieldElement::from_bytes_be` on the 32-byte big-endian form of a felt
always succeeds (the value is below the prime by type), so it introduces
no failure case. -/
structure ExtLibs (C P S : Type) where
  parseCasm : Json → Option C
  casmHash : C → Felt
  parseProgram : Json → Option P
  getStripped : P → Option S
  hashChain : S → Nat → Option Felt

/-- Model of `serde_json::from_slice::<CasmContractClass>` on raw bytes:
bytes that are not valid JSON never deserialize. -/
def parseCasmBytes {C P S : Type} (ext : ExtLibs C P S) : Bytes → Option C
  | .raw _ => none
  | .json j => ext.parseCasm j

/-- Model of `Program::from_bytes(&data, Some("main"))` on raw bytes:
bytes that are not valid JSON never deserialize. -/
def parseProgramBytes {C P S : Type} (ext : ExtLibs C P S) : Bytes → Option P
  | .raw _ => none
  | .json j => ext.parseProgram j

/-- Model of Rust `format!` with the alternate lower-hex specifier on a
field element: the marker `0x` followed by the minimal-width lowercase
hexadecimal digits of the value (no leading-zero padding; `0x0` for zero). -/
def toHex0x (n : Nat) : String :=
  "0x" ++ String.mk (Nat.toDigits 16 n)

/-- Row of the `programs` table: surrogate id, content hash, raw payload,
format version. -/
structure Row where
  id : Nat
  hash : String
  code : Bytes
  version : Int

/-- State of the storage layer: the rows of the `programs` table plus a
flag modelling a storage outage. -/
structure Store where
  rows : List Row
  down : Bool

/-- Modelled from the spec: the migrations (not under `src/`) declare the
`programs` table with a uniqueness constraint on the `hash` column (§3
"content_hash ... unique across all artifacts", §4.2 "implement via a
uniqueness constraint at the storage layer").  An INSERT fails when the
storage layer is down or when a row with the same hash already exists;
otherwise the new row is appended atomically. -/
def Store.insert (s : Store) (r : Row) : Option Store :=
  if s.down then none
  else if s.rows.any (fun r0 => decide (r0.hash = r.hash)) then none
  else some { rows := s.rows ++ [r], down := s.down }

/-- Model of `SELECT code FROM programs WHERE hash = $1 ... fetch_one`:
`none` when the storage layer is down or no row matches. -/
def Store.fetchCode (s : Store) (h : String) : Option Bytes :=
  if s.down then none
  else (s.rows.find? (fun r => decide (r.hash = h))).map Row.code

/-- Successful response of the fetch handler: headers and streamed body. -/
structure GetResponse where
  contentType : String
  contentDisposition : String
  body : Bytes

/-- Model of `get_program` (src/main.rs lines 69-95): select the payload
by hash; any fetch failure (row not found or storage outage alike) is
mapped to status 500; on success stream the stored bytes back with the
JSON content type and an attachment disposition naming the hash. -/
def get_program (s : Store) (program_hash : String) : Except Nat GetResponse :=
  match Store.fetchCode s program_hash with
  | none => .error 500
  | some code =>
    .ok { contentType := "application/json"
          contentDisposition := "attachment; filename=\"" ++ program_hash ++ ".json\""
          body := code }

/-- Mutable state of the multipart loop in `upload_program`: the version
tag (initialized to 0) and the last payload seen under the field name
`program`. -/
structure LoopState where
  version : Int
  program_data : Option Bytes

/-- First segment of a split, Rust `collect::<Vec<&str>>()[0]`; the split
always yields at least one segment, so the empty-list arm is unreachable. -/
def firstSegment (cs : List Char) : List Char :=
  match splitChar '.' cs with
  | [] => []
  | g :: _ => g

/-- Model of the multipart loop (src/main.rs lines 111-122): for each
field named `program`, extract the compiler version (unwrap: an error
panics), parse the major component as an i32 (unwrap: a failure panics),
and remember the payload.  `none` is a handler panic. -/
def processFields : List (String × Bytes) → LoopState → Option LoopState
  | [], st => some st
  | (name, data) :: rest, st =>
    if name = "program" then
      match get_compiler_version data with
      | .error _ => none
      | .ok cv =>
        match parse_i32 (firstSegment cv.toList) with
        | none => none
        | some v => processFields rest { version := v, program_data := some data }
    else processFields rest st

/-- Outcome of the format-dispatched hash computation (src/main.rs lines
126-157, persistence excluded): the rendered hex digest, a handler panic
(a failed unwrap/expect), or an unsupported version. -/
inductive HashOutcome where
  | hex : String → HashOutcome
  | panicked : HashOutcome
  | unsupported : HashOutcome
deriving DecidableEq

/-- Format-dispatched content-hash computation of `upload_program`:
version 2 deserializes the blob as a casm contract class (unwrap: failure
panics) and renders its compiled class hash; version 0 loads the program
(expect: failure panics), strips it (unwrap), computes the hash chain with
bootloader version 0 (expect) and renders it; any other version is
unsupported. -/
def compute_content_hash {C P S : Type} (ext : ExtLibs C P S) (data : Bytes)
    (version : Int) : HashOutcome :=
  if version = 2 then
    match parseCasmBytes ext data with
    | none => .panicked
    | some casm => .hex (toHex0x (ext.casmHash casm).val)
  else if version = 0 then
    match parseProgramBytes ext data with
    | none => .panicked
    | some prog =>
      match ext.getStripped prog with
      | none => .panicked
      | some sp =>
        match ext.hashChain sp 0 with
        | none => .panicked
        | some h => .hex (toHex0x h.val)
  else .unsupported

/-- Outcome of the upload handler: `Ok(body)` with status 200, an error
status code, or a handler panic (no HTTP response produced). -/
inductive UploadOutcome where
  | ok : String → UploadOutcome
  | err : Nat → UploadOutcome
  | panicked : UploadOutcome
deriving DecidableEq

/-- Result of one run of the upload handler: the outcome, the storage
state afterwards, and the hex digest the handler computed (mirroring the
local `program_hash_hex`, `none` when execution never reached the
assignment). -/
structure UploadResult where
  outcome : UploadOutcome
  store : Store
  computedHash : Option String

/-- Model of `upload_program` (src/main.rs lines 102-180): run the
multipart loop; with no `program` part return `Ok` with the empty string
and touch nothing; otherwise dispatch on the version — versions 2 and 0
compute the format-specific hash and INSERT a fresh row (uuid, hash,
verbatim payload, version), mapping an insert failure to status 500, and
any other version returns status 400 before hashing; on success the body
is the computed hex digest.  The uuid is an opaque external input. -/
def upload_program {C P S : Type} (ext : ExtLibs C P S)
    (parts : List (String × Bytes)) (uuid : Nat) (db : Store) : UploadResult :=
  match processFields parts { version := 0, program_data := none } with
  | none => { outcome := .panicked, store := db, computedHash := none }
  | some st =>
    match st.program_data with
    | none => { outcome := .ok "", store := db, computedHash := none }
    | some data =>
      match compute_content_hash ext data st.version with
      | .unsupported => { outcome := .err 400, store := db, computedHash := none }
      | .panicked => { outcome := .panicked, store := db, computedHash := none }
      | .hex hx =>
        match db.insert { id := uuid, hash := hx, code := data, version := st.version } with
        | none => { outcome := .err 500, store := db, computedHash := some hx }
        | some db2 => { outcome := .ok hx, store := db2, computedHash := some hx }

/-- Last payload uploaded under the multipart field name `program` (the
loop overwrites earlier ones). -/
def lastProgramField (parts : List (String × Bytes)) : Option Bytes :=
  parts.foldl (fun acc p => if p.1 = "program" then some p.2 else acc) none

/-- Demonstration instantiation of the external libraries over trivial
carrier types: every JSON document deserializes, the casm digest is 5 and
the program hash chain digest is 7. -/
def extDemo : ExtLibs Unit Unit Unit :=
  { parseCasm := fun _ => some ()
    casmHash := fun _ => ⟨5, by decide⟩
    parseProgram := fun _ => some ()
    getStripped := fun _ => some ()
    hashChain := fun _ _ => some ⟨7, by decide⟩ }

/-- Demonstration external libraries whose casm digest is 256, used to
exhibit a digest of a different hex width. -/
def extDemoBig : ExtLibs Unit Unit Unit :=
  { extDemo with casmHash := fun _ => ⟨256, by decide⟩ }

/-- Demonstration external libraries under which no blob deserializes as
a casm contract class and no blob loads as a program. -/
def extDemoBad : ExtLibs Unit Unit Unit :=
  { extDemo with parseCasm := fun _ => none, parseProgram := fun _ => none }

/-- Concrete compiled-class blob: a JSON object declaring compiler
version 2.1.0. -/
def blobCasm : Bytes := .json (.obj [("compiler_version", .str "2.1.0")])

/-- Concrete blob with no compiler_version field. -/
def blobNoVersion : Bytes := .json (.obj [("data", .arr [])])

/-- Concrete blob declaring the unsupported compiler version 5.0.0. -/
def blobV5 : Bytes := .json (.obj [("compiler_version", .str "5.0.0")])

/-- Concrete plain-program blob: a JSON object declaring compiler
version 0.13.1. -/
def blobPlain : Bytes := .json (.obj [("compiler_version", .str "0.13.1")])

/-- Empty, healthy storage state. -/
def emptyStore : Store := { rows := [], down := false }


lemma toHex0x_data (n : Nat) : (toHex0x n).data = '0' :: 'x' :: Nat.toDigits 16 n := rfl

lemma toHex0x_ne_empty (n : Nat) : toHex0x n ≠ "" := by
  intro h
  have h2 : (toHex0x n).data = ([] : List Char) := by rw [h]
  rw [toHex0x_data] at h2
  exact List.noConfusion h2

lemma compute_content_hash_hex_inv {C P S : Type} (ext : ExtLibs C P S)
    (data : Bytes) (v : Int) (hx : String)
    (h : compute_content_hash ext data v = .hex hx) : ∃ n : Nat, hx = toHex0x n := by
  unfold compute_content_hash at h
  split at h
  · split at h
    · exact absurd h (by simp)
    · exact ⟨_, (HashOutcome.hex.inj h).symm⟩
  · split at h
    · split at h
      · exact absurd h (by simp)
      · split at h
        · exact absurd h (by simp)
        · split at h
          · exact absurd h (by simp)
          · exact ⟨_, (HashOutcome.hex.inj h).symm⟩
    · exact absurd h (by simp)

lemma processFields_cons_program (data : Bytes) (rest : List (String × Bytes))
    (st : LoopState) :
    processFields (("program", data) :: rest) st
      = match get_compiler_version data with
        | .error _ => none
        | .ok cv =>
          match parse_i32 (firstSegment cv.toList) with
          | none => none
          | some v => processFields rest { version := v, program_data := some data } := by
  simp [processFields]

lemma processFields_cons_other (name : String) (data : Bytes)
    (rest : List (String × Bytes)) (st : LoopState) (hname : name ≠ "program") :
    processFields ((name, data) :: rest) st = processFields rest st := by
  simp [processFields, hname]

lemma processFields_program_data (parts : List (String × Bytes)) :
    ∀ st st' : LoopState, processFields parts st = some st' →
      st'.program_data
        = parts.foldl (fun acc p => if p.1 = "program" then some p.2 else acc)
            st.program_data := by
  induction parts with
  | nil =>
    intro st st' h
    simp only [processFields, Option.some.injEq] at h
    rw [← h]
    rfl
  | cons p rest ih =>
    intro st st' h
    rcases p with ⟨name, data⟩
    by_cases hname : name = "program"
    · subst hname
      rw [processFields_cons_program] at h
      split at h
      · exact absurd h (by simp)
      · split at h
        · exact absurd h (by simp)
        · rw [ih _ _ h]
          simp [List.foldl]
    · rw [processFields_cons_other name data rest st hname] at h
      rw [ih _ _ h]
      simp [List.foldl, hname]

lemma processFields_skip (parts : List (String × Bytes)) :
    ∀ st : LoopState, (∀ p ∈ parts, p.1 ≠ "program") → processFields parts st = some st := by
  induction parts with
  | nil => intro st _; rfl
  | cons p rest ih =>
    intro st h
    rcases p with ⟨name, data⟩
    have hp : name ≠ "program" := h (name, data) (List.mem_cons_self _ _)
    rw [processFields_cons_other name data rest st hp]
    exact ih st fun q hq => h q (List.mem_cons_of_mem _ hq)

lemma find?_append_singleton (p : Row → Bool) (l : List Row) (r : Row)
    (hnone : ∀ x ∈ l, p x = false) (hr : p r = true) :
    List.find? p (l ++ [r]) = some r := by
  induction l with
  | nil => simp [List.find?, hr]
  | cons a as ih =>
    have ha : p a = false := hnone a (List.mem_cons_self _ _)
    simp only [List.cons_append, List.find?, ha]
    exact ih fun x hx => hnone x (List.mem_cons_of_mem _ hx)

lemma Store.fetchCode_insert (s : Store) (r : Row) (s' : Store)
    (h : s.insert r = some s') : s'.fetchCode r.hash = some r.code := by
  unfold Store.insert at h
  by_cases hd : s.down = true
  · simp [hd] at h
  · rw [if_neg hd] at h
    by_cases hdup : s.rows.any (fun r0 => decide (r0.hash = r.hash)) = true
    · simp [hdup] at h
    · rw [if_neg hdup] at h
      injection h with h
      rw [← h]
      unfold Store.fetchCode
      rw [if_neg hd]
      have hfind : List.find? (fun r0 => decide (r0.hash = r.hash)) (s.rows ++ [r])
          = some r := by
        apply find?_append_singleton
        · intro x hx
          by_contra hne
          exact hdup (List.any_of_mem hx (by simpa using hne))
        · simp
      rw [hfind]
      rfl

lemma Store.insert_dup (s : Store) (r r' : Row) (s' : Store)
    (h : s.insert r = some s') (hh : r'.hash = r.hash) : s'.insert r' = none := by
  unfold Store.insert at h ⊢
  by_cases hd : s.down = true
  · simp [hd] at h
  · rw [if_neg hd] at h
    by_cases hdup : s.rows.any (fun r0 => decide (r0.hash = r.hash)) = true
    · simp [hdup] at h
    · rw [if_neg hdup] at h
      injection h with h
      rw [← h]
      have hmem : (s.rows ++ [r]).any (fun r0 => decide (r0.hash = r'.hash)) = true :=
        List.any_of_mem (List.mem_append_right _ (List.mem_singleton_self r)) (by simp [hh])
      rw [if_neg hd, if_pos hmem]

lemma upload_program_ok_inversion {C P S : Type} (ext : ExtLibs C P S)
    (parts : List (String × Bytes)) (u : Nat) (s : Store) (hx : String)
    (hok : (upload_program ext parts u s).outcome = .ok hx) (hne : hx ≠ "") :
    ∃ st data db2,
      processFields parts { version := 0, program_data := none } = some st ∧
      st.program_data = some data ∧
      compute_content_hash ext data st.version = .hex hx ∧
      s.insert { id := u, hash := hx, code := data, version := st.version } = some db2 ∧
      upload_program ext parts u s = ⟨.ok hx, db2, some hx⟩ := by
  unfold upload_program at hok
  rcases hpf : processFields parts { version := 0, program_data := none } with _ | st
  · rw [hpf] at hok
    exact absurd hok (by simp)
  · rw [hpf] at hok
    dsimp only at hok
    rcases hpd : st.program_data with _ | data
    · rw [hpd] at hok
      dsimp only at hok
      exact absurd (UploadOutcome.ok.inj hok).symm hne
    · rw [hpd] at hok
      dsimp only at hok
      rcases hch : compute_content_hash ext data st.version with hx' | _ | _
      · rw [hch] at hok
        dsimp only at hok
        rcases hins : s.insert { id := u, hash := hx', code := data, version := st.version }
          with _ | db2
        · rw [hins] at hok
          exact absurd hok (by simp)
        · rw [hins] at hok
          dsimp only at hok
          obtain rfl : hx' = hx := UploadOutcome.ok.inj hok
          refine ⟨st, data, db2, rfl, hpd, hch, hins, ?_⟩
          simp only [upload_program, hpf, hpd, hch, hins]
      · rw [hch] at hok
        exact absurd hok (by simp)
      · rw [hch] at hok
        exact absurd hok (by simp)

/-- Claim C1 (counterexample): uploading the same casm blob twice with the
same format version does not return the identical hash string both times —
the second upload hits the storage uniqueness constraint and fails with
status 500 instead of succeeding; exactly one row exists afterwards. -/
theorem reupload_not_idempotent_cex :
    (upload_program extDemo [("program", blobCasm)] 1 emptyStore).outcome = .ok "0x5" ∧
    (upload_program extDemo [("program", blobCasm)] 2
        (upload_program extDemo [("program", blobCasm)] 1 emptyStore).store).outcome
      = .err 500 ∧
    (upload_program extDemo [("program", blobCasm)] 2
        (upload_program extDemo [("program", blobCasm)] 1 emptyStore).store).store.rows.length
      = 1 :=
  ⟨rfl, rfl, rfl⟩

/-- Claim C1 (amended): uploading the same blob twice does not create a
second row, and the same content hash is computed both times, but the
second upload's INSERT collides with the uniqueness constraint and the
handler returns status 500 rather than the hash string. -/
theorem reupload_same_blob_conflicts {C P S : Type} (ext : ExtLibs C P S)
    (parts : List (String × Bytes)) (u1 u2 : Nat) (s : Store) (hx : String)
    (hok : (upload_program ext parts u1 s).outcome = .ok hx) (hne : hx ≠ "") :
    upload_program ext parts u2 (upload_program ext parts u1 s).store
      = ⟨.err 500, (upload_program ext parts u1 s).store, some hx⟩ := by
  obtain ⟨st, data, db2, hpf, hpd, hch, hins, hrun⟩ :=
    upload_program_ok_inversion ext parts u1 s hx hok hne
  rw [hrun]
  show upload_program ext parts u2 db2 = ⟨.err 500, db2, some hx⟩
  have hdup : db2.insert { id := u2, hash := hx, code := data, version := st.version } = none :=
    Store.insert_dup s { id := u1, hash := hx, code := data, version := st.version }
      { id := u2, hash := hx, code := data, version := st.version } db2 hins rfl
  simp only [upload_program, hpf, hpd, hch, hdup]

/-- Witness for C1 (amended) at a concrete re-upload. -/
theorem reupload_same_blob_conflicts_witness :
    upload_program extDemo [("program", blobCasm)] 2
        (upload_program extDemo [("program", blobCasm)] 1 emptyStore).store
      = ⟨.err 500, (upload_program extDemo [("program", blobCasm)] 1 emptyStore).store,
          some "0x5"⟩ :=
  reupload_same_blob_conflicts extDemo [("program", blobCasm)] 1 2 emptyStore "0x5" rfl
    (by decide)

/-- Claim C2 (counterexample): a blob whose JSON has no compiler_version
field is not classified as the plain-program format — the handler panics
on the unwrapped classification error, computes no hash and stores
nothing. -/
theorem missing_compiler_version_cex :
    upload_program extDemo [("program", blobNoVersion)] 1 emptyStore
      = ⟨.panicked, emptyStore, none⟩ := rfl

/-- Claim C2 (amended): for every uploaded JSON blob with no (string)
compiler_version field, `get_compiler_version` returns an error which the
handler unwraps, so the request panics before any classification,
hashing or persistence; the absence of the field is an error rather than
a default to format version 0. -/
theorem missing_compiler_version_panics {C P S : Type} (ext : ExtLibs C P S)
    (u : Nat) (s : Store) (j : Json)
    (habs : (Json.get j "compiler_version").bind Json.asStr = none) :
    upload_program ext [("program", Bytes.json j)] u s = ⟨.panicked, s, none⟩ := by
  have hcv : get_compiler_version (Bytes.json j)
      = .error "compiler_version field not found or not a uint" := by
    simp only [get_compiler_version, habs]
  have hpf : processFields [("program", Bytes.json j)]
      { version := 0, program_data := none } = none := by
    rw [processFields_cons_program, hcv]
  simp only [upload_program, hpf]

/-- Witness for C2 (amended) at the empty JSON object. -/
theorem missing_compiler_version_panics_witness :
    upload_program extDemo [("program", Bytes.json (Json.obj []))] 1 emptyStore
      = ⟨.panicked, emptyStore, none⟩ :=
  missing_compiler_version_panics extDemo 1 emptyStore (Json.obj []) rfl

/-- Claim C3 (confirmed): for every successful upload, fetching by the
returned content hash yields exactly the originally uploaded payload,
streamed back verbatim with the JSON content type and attachment
disposition. -/
theorem round_trip_fetch {C P S : Type} (ext : ExtLibs C P S)
    (parts : List (String × Bytes)) (u : Nat) (s : Store) (hx : String) (data : Bytes)
    (hok : (upload_program ext parts u s).outcome = .ok hx)
    (hlast : lastProgramField parts = some data) :
    get_program (upload_program ext parts u s).store hx
      = .ok { contentType := "application/json"
              contentDisposition := "attachment; filename=\"" ++ hx ++ ".json\""
              body := data } := by
  unfold upload_program at hok ⊢
  rcases hpf : processFields parts { version := 0, program_data := none } with _ | st
  · rw [hpf] at hok
    exact absurd hok (by simp)
  · rw [hpf] at hok
    dsimp only at hok ⊢
    have hpd : st.program_data = some data :=
      (processFields_program_data parts _ st hpf).trans hlast
    rw [hpd] at hok ⊢
    dsimp only at hok ⊢
    rcases hch : compute_content_hash ext data st.version with hx' | _ | _
    · rw [hch] at hok
      dsimp only at hok ⊢
      rcases hins : s.insert { id := u, hash := hx', code := data, version := st.version }
        with _ | db2
      · rw [hins] at hok
        exact absurd hok (by simp)
      · rw [hins] at hok
        dsimp only at hok ⊢
        obtain rfl : hx' = hx := UploadOutcome.ok.inj hok
        have hfetch := Store.fetchCode_insert s _ db2 hins
        dsimp only at hfetch
        unfold get_program
        rw [hfetch]
    · rw [hch] at hok
      exact absurd hok (by simp)
    · rw [hch] at hok
      exact absurd hok (by simp)

/-- Witness for C3 at a concrete casm upload. -/
theorem round_trip_fetch_witness :
    get_program (upload_program extDemo [("program", blobCasm)] 1 emptyStore).store "0x5"
      = .ok { contentType := "application/json"
              contentDisposition := "attachment; filename=\"" ++ "0x5" ++ ".json\""
              body := blobCasm } :=
  round_trip_fetch extDemo [("program", blobCasm)] 1 emptyStore "0x5" blobCasm rfl rfl

/-- Claim C4 (confirmed): a blob whose compiler_version major component
parses to an integer other than 2 and 0 makes the upload return status
400 with no hash computed and no row inserted. -/
theorem unsupported_version_400 {C P S : Type} (ext : ExtLibs C P S)
    (u : Nat) (s : Store) (b : Bytes) (cv : String) (v : Int)
    (hcv : get_compiler_version b = .ok cv)
    (hv : parse_i32 (firstSegment cv.toList) = some v)
    (h2 : v ≠ 2) (h0 : v ≠ 0) :
    upload_program ext [("program", b)] u s = ⟨.err 400, s, none⟩ := by
  have hpf : processFields [("program", b)] { version := 0, program_data := none }
      = some { version := v, program_data := some b } := by
    rw [processFields_cons_program, hcv]
    dsimp only
    rw [hv]
    rfl
  have hch : compute_content_hash ext b v = .unsupported := by
    unfold compute_content_hash
    rw [if_neg h2, if_neg h0]
  simp only [upload_program, hpf, hch]

/-- Witness for C4 at compiler version 5.0.0 (spec scenario 3). -/
theorem unsupported_version_400_witness :
    upload_program extDemo [("program", blobV5)] 1 emptyStore = ⟨.err 400, emptyStore, none⟩ :=
  unsupported_version_400 extDemo 1 emptyStore blobV5 "5.0.0" 5 rfl rfl (by decide) (by decide)

/-- Claim C5 (counterexample): a version-2 blob that fails to deserialize
as a casm contract class does not produce a ParseError response — the
handler panics on the unwrap, with no hash and no error status. -/
theorem parse_failure_no_parse_error_cex :
    upload_program extDemoBad [("program", blobCasm)] 1 emptyStore
      = ⟨.panicked, emptyStore, none⟩ := rfl

/-- Claim C5 (amended): a blob that does not conform to the structure its
classified format requires is rejected before any hash is produced or row
inserted, but by a handler panic (a failed unwrap/expect), not by a
ParseError result. -/
theorem parse_failure_panics {C P S : Type} (ext : ExtLibs C P S)
    (u : Nat) (s : Store) (b : Bytes) (cv : String) (v : Int)
    (hcv : get_compiler_version b = .ok cv)
    (hv : parse_i32 (firstSegment cv.toList) = some v)
    (hbad : (v = 2 ∧ parseCasmBytes ext b = none) ∨
            (v = 0 ∧ parseProgramBytes ext b = none)) :
    upload_program ext [("program", b)] u s = ⟨.panicked, s, none⟩ := by
  have hpf : processFields [("program", b)] { version := 0, program_data := none }
      = some { version := v, program_data := some b } := by
    rw [processFields_cons_program, hcv]
    dsimp only
    rw [hv]
    rfl
  have hch : compute_content_hash ext b v = .panicked := by
    rcases hbad with ⟨hv2, hc⟩ | ⟨hv0, hp⟩
    · subst hv2
      unfold compute_content_hash
      rw [if_pos rfl, hc]
    · subst hv0
      unfold compute_content_hash
      rw [if_neg (by decide), if_pos rfl, hp]
  simp only [upload_program, hpf, hch]

/-- Witness for C5 (amended) at a version-0 blob that fails to load as a
program. -/
theorem parse_failure_panics_witness :
    upload_program extDemoBad [("program", blobPlain)] 1 emptyStore
      = ⟨.panicked, emptyStore, none⟩ :=
  parse_failure_panics extDemoBad 1 emptyStore blobPlain "0.13.1" 0 rfl rfl
    (Or.inr ⟨rfl, rfl⟩)

/-- Claim C6 (confirmed): the content hash the upload handler computes is
a pure function of the uploaded parts alone — it does not depend on the
storage state or on the generated uuid. -/
theorem content_hash_deterministic {C P S : Type} (ext : ExtLibs C P S)
    (parts : List (String × Bytes)) (u1 u2 : Nat) (s1 s2 : Store) :
    (upload_program ext parts u1 s1).computedHash
      = (upload_program ext parts u2 s2).computedHash := by
  unfold upload_program
  rcases processFields parts { version := 0, program_data := none } with _ | st
  · rfl
  · dsimp only
    rcases st.program_data with _ | data
    · rfl
    · dsimp only
      rcases compute_content_hash ext data st.version with hx | _ | _
      · dsimp only
        rcases s1.insert { id := u1, hash := hx, code := data, version := st.version }
          with _ | db1
        · rcases s2.insert { id := u2, hash := hx, code := data, version := st.version }
            with _ | db2 <;> rfl
        · rcases s2.insert { id := u2, hash := hx, code := data, version := st.version }
            with _ | db2 <;> rfl
      · rfl
      · rfl

/-- Claim C7 (confirmed): a fetch whose hash matches no stored row, and a
fetch during a storage outage, both return status 500. -/
theorem get_unknown_hash_500 (s : Store) (h : String)
    (hc : s.down = true ∨ s.rows.any (fun r => decide (r.hash = h)) = false) :
    get_program s h = .error 500 := by
  have hfetch : s.fetchCode h = none := by
    unfold Store.fetchCode
    rcases hc with hd | hnone
    · rw [if_pos hd]
    · by_cases hd : s.down = true
      · rw [if_pos hd]
      · rw [if_neg hd]
        have hfind : s.rows.find? (fun r => decide (r.hash = h)) = none := by
          rw [List.find?_eq_none]
          intro x hx hpx
          rw [List.any_of_mem hx hpx] at hnone
          exact Bool.noConfusion hnone
        rw [hfind]
        rfl
  unfold get_program
  rw [hfetch]

/-- Witness for C7 at the unknown hash of spec scenario 4. -/
theorem get_unknown_hash_500_witness : get_program emptyStore "deadbeef" = .error 500 :=
  get_unknown_hash_500 emptyStore "deadbeef" (Or.inr rfl)

/-- Claim C8 (confirmed): an upload that fails by a classification/parse
panic or by the unsupported-format status 400 leaves the storage state
unchanged — no row is inserted. -/
theorem no_insert_on_failure {C P S : Type} (ext : ExtLibs C P S)
    (parts : List (String × Bytes)) (u : Nat) (s : Store)
    (h : (upload_program ext parts u s).outcome = .panicked ∨
         (upload_program ext parts u s).outcome = .err 400) :
    (upload_program ext parts u s).store = s := by
  rcases hpf : processFields parts { version := 0, program_data := none } with _ | st
  · simp only [upload_program, hpf]
  · rcases hpd : st.program_data with _ | data
    · simp only [upload_program, hpf, hpd]
    · rcases hch : compute_content_hash ext data st.version with hx | _ | _
      · rcases hins : s.insert { id := u, hash := hx, code := data, version := st.version }
          with _ | db2
        · simp only [upload_program, hpf, hpd, hch, hins]
        · exfalso
          rcases h with h | h <;>
            simp only [upload_program, hpf, hpd, hch, hins] at h <;> simp at h
      · simp only [upload_program, hpf, hpd, hch]
      · simp only [upload_program, hpf, hpd, hch]

/-- Witness for C8 at a failing (unsupported-version) upload. -/
theorem no_insert_on_failure_witness :
    (upload_program extDemo [("program", blobV5)] 1 emptyStore).store = emptyStore :=
  no_insert_on_failure extDemo [("program", blobV5)] 1 emptyStore (Or.inr rfl)

/-- Claim C9 (counterexample): the hash string returned for a successful
compiled-class upload does not have constant length — the hex rendering
is minimal-width, so different digests give different body lengths. -/
theorem hash_not_fixed_width_cex :
    (upload_program extDemo [("program", blobCasm)] 1 emptyStore).outcome = .ok "0x5" ∧
    (upload_program extDemoBig [("program", blobCasm)] 1 emptyStore).outcome = .ok "0x100" ∧
    ("0x5" : String).length ≠ ("0x100" : String).length :=
  ⟨rfl, rfl, by decide⟩

/-- Claim C9 (amended): every successful upload's non-empty response body
is the 0x marker followed by the minimal-width hexadecimal digits of the
digest — marker-prefixed, but of varying (not constant) length. -/
theorem hash_marker_hex_form {C P S : Type} (ext : ExtLibs C P S)
    (parts : List (String × Bytes)) (u : Nat) (s : Store) (hx : String)
    (hok : (upload_program ext parts u s).outcome = .ok hx) (hne : hx ≠ "") :
    ∃ n : Nat, hx = toHex0x n := by
  obtain ⟨st, data, db2, hpf, hpd, hch, hins, hrun⟩ :=
    upload_program_ok_inversion ext parts u s hx hok hne
  exact compute_content_hash_hex_inv ext data st.version hx hch

/-- Witness for C9 (amended) at a concrete casm upload. -/
theorem hash_marker_hex_form_witness : ∃ n : Nat, "0x5" = toHex0x n :=
  hash_marker_hex_form extDemo [("program", blobCasm)] 1 emptyStore "0x5" rfl (by decide)

/-- Claim C10 (confirmed): an upload whose multipart body has no part
named program returns status 200 with an empty body and inserts
nothing. -/
theorem no_program_part_ok_empty {C P S : Type} (ext : ExtLibs C P S)
    (parts : List (String × Bytes)) (u : Nat) (s : Store)
    (h : ∀ p ∈ parts, p.1 ≠ "program") :
    upload_program ext parts u s = ⟨.ok "", s, none⟩ := by
  have hpf := processFields_skip parts { version := 0, program_data := none } h
  simp only [upload_program, hpf]

/-- Witness for C10 at a multipart body with a differently named part. -/
theorem no_program_part_ok_empty_witness :
    upload_program extDemo [("casm", blobCasm)] 1 emptyStore = ⟨.ok "", emptyStore, none⟩ :=
  no_program_part_ok_empty extDemo [("casm", blobCasm)] 1 emptyStore (by decide)
